import Mathlib

/-!
# Verification of the photo-to-3d generation orchestration pipeline

Shallow embedding of the repository's orchestration core:
* the retry wrapper `withRetry` (app/actions and api route variants, identical logic),
* the polling loop `pollPrediction` (lib/replicate),
* the gateway output normalization (api/generate/route.ts and lib/replicate's
  `runTripoSR`),
* the generate route handler (validation, effect sequencing, status updates),
* the `generate3DModel` server action,
* the filename generator `generateFilename` (lib/storage),
* the cleanup route handler (api/cleanup/route.ts).

Effectful TypeScript is modelled by passing the outcome of each external call
explicitly (an `Except String` value per call, or a function from the attempt
index for retried calls) and by returning, next to the response, the list of
side effects the handler performed, in order.  JavaScript strings are modelled
as Lean `String`; JavaScript `setTimeout` delays are recorded in a wait list
instead of sleeping.
-/

/-- Helper for `strIncludes`: does `pat` occur contiguously in the char list? -/
def strIncludesChars (pat : List Char) : List Char → Bool
  | [] => pat.isEmpty
  | c :: t => (List.take pat.length (c :: t) == pat) || strIncludesChars pat t

/-- JS `s.includes(pat)`: `pat` occurs as a contiguous substring of `s`. -/
def strIncludes (s pat : String) : Bool :=
  strIncludesChars pat.toList s.toList

/-- JS `s.endsWith(pat)` over the characters of the strings. -/
def strEndsWith (s pat : String) : Bool :=
  List.drop (s.toList.length - pat.toList.length) s.toList == pat.toList

/-- JS `s.startsWith(pat)` over the characters of the strings. -/
def strStartsWith (s pat : String) : Bool :=
  List.take pat.toList.length s.toList == pat.toList

/-- Worker for `jsSplit`: split at each occurrence of the separator
`s0 :: stail`, accumulating the current piece in reverse.  The fuel, set to
the list length by `jsSplit`, decreases no faster than the list, so the
out-of-fuel branch is unreachable. -/
def splitCharsAux (s0 : Char) (stail : List Char) :
    Nat → List Char → List Char → List (List Char)
  | _, [], acc => [acc.reverse]
  | 0, l, acc => [acc.reverse ++ l]
  | fuel + 1, c :: rest, acc =>
    if c = s0 && List.take stail.length rest == stail then
      acc.reverse :: splitCharsAux s0 stail fuel (List.drop stail.length rest) []
    else
      splitCharsAux s0 stail fuel rest (c :: acc)

/-- JS `s.split(sep)`.  For the (unused here) empty separator JS splits into
single characters. -/
def jsSplit (s sep : String) : List String :=
  match sep.toList with
  | [] => s.toList.map (fun c => String.mk [c])
  | s0 :: stail => (splitCharsAux s0 stail s.toList.length s.toList []).map String.mk

/-- JS `s.toLowerCase()` (ASCII, which is all the code feeds it). -/
def jsToLower (s : String) : String :=
  String.mk (s.toList.map Char.toLower)

/-- JS `Array.prototype.join(sep)` for string arrays. -/
def joinWith (sep : String) : List String → String
  | [] => ""
  | [x] => x
  | x :: xs => x ++ sep ++ joinWith sep xs

/-- The non-retryable-error classifier of `withRetry`
(`lastError.message.includes('Invalid') || lastError.message.includes('Missing')`). -/
def isNonRetryableMsg (msg : String) : Bool :=
  strIncludes msg "Invalid" || strIncludes msg "Missing"

/-- Observable outcome of one `withRetry` run: the final result
(`.error none` models JS re-throwing the initial `undefined` `lastError`,
possible only when `maxRetries = 0`), the number of invocations of `fn`,
and the list of backoff delays slept, in order. -/
structure RetryTrace (α : Type) where
  result : Except (Option String) α
  calls : Nat
  waits : List Nat

/-- Loop body of `withRetry` (part_000 lines 26-58 / part_001 lines 40-69).
`f attempt` is the outcome of the `attempt`-th invocation of `fn`.  `fuel`
counts the remaining loop iterations (`maxRetries - attempt`), `delayMs` the
current backoff delay, `lastError` the JS `lastError` variable and `waits` the
delays slept so far. -/
def withRetryAux {α : Type} (f : Nat → Except String α) (maxRetries : Nat) :
    Nat → Nat → Nat → Option String → List Nat → RetryTrace α
  | 0, attempt, _delayMs, lastError, waits => ⟨.error lastError, attempt, waits⟩
  | fuel + 1, attempt, delayMs, _lastError, waits =>
    match f attempt with
    | .ok v => ⟨.ok v, attempt + 1, waits⟩
    | .error e =>
      if isNonRetryableMsg e then
        ⟨.error (some e), attempt + 1, waits⟩
      else if attempt < maxRetries - 1 then
        withRetryAux f maxRetries fuel (attempt + 1) (delayMs * 2) (some e) (waits ++ [delayMs])
      else
        withRetryAux f maxRetries fuel (attempt + 1) delayMs (some e) waits

/-- `withRetry(fn, maxRetries, initialDelayMs)`; the source defaults are
`maxRetries = 3`, `initialDelayMs = 1000`. -/
def withRetry {α : Type} (f : Nat → Except String α) (maxRetries initialDelayMs : Nat) :
    RetryTrace α :=
  withRetryAux f maxRetries maxRetries 0 initialDelayMs none []

/-- The doubling-delay schedule `[d, 2d, 4d, ...]` peels off its head. -/
theorem geomDelays (d m : Nat) :
    (List.range (m + 1)).map (fun i => d * 2 ^ i) =
      d :: (List.range m).map (fun i => d * 2 * 2 ^ i) := by
  rw [List.range_succ_eq_map, List.map_cons, List.map_map]
  simp only [pow_zero, Nat.mul_one, List.cons.injEq, true_and]
  apply List.map_congr_left
  intro i _
  simp only [Function.comp_apply, pow_succ]
  ring

/-- If every attempt from `attempt` on fails with a retryable error, the loop
consumes all its fuel, sleeping the doubling delays, and ends with the last
error. -/
theorem withRetryAux_allFail {α : Type} (f : Nat → Except String α) (es : Nat → String)
    (maxRetries : Nat)
    (hfail : ∀ i, i < maxRetries → f i = .error (es i) ∧ isNonRetryableMsg (es i) = false) :
    ∀ fuel attempt delayMs lastError waits, 1 ≤ fuel → attempt + fuel = maxRetries →
      withRetryAux f maxRetries fuel attempt delayMs lastError waits =
        ⟨.error (some (es (maxRetries - 1))), maxRetries,
          waits ++ (List.range (fuel - 1)).map (fun i => delayMs * 2 ^ i)⟩ := by
  intro fuel
  induction fuel with
  | zero => intro attempt delayMs lastError waits h1 _; exact absurd h1 (by omega)
  | succ n ih =>
    intro attempt delayMs lastError waits _ htot
    have hattempt : attempt < maxRetries := by omega
    obtain ⟨hf, hnr⟩ := hfail attempt hattempt
    cases n with
    | zero =>
      have hnotlt : ¬ attempt < maxRetries - 1 := by omega
      have h2 : attempt = maxRetries - 1 := by omega
      subst h2
      have h1 : maxRetries - 1 + 1 = maxRetries := by omega
      simp [withRetryAux, hf, hnr, hnotlt, h1]
    | succ m =>
      have hlt : attempt < maxRetries - 1 := by omega
      have hstep := ih (attempt + 1) (delayMs * 2) (some (es attempt)) (waits ++ [delayMs])
        (by omega) (by omega)
      have hunfold : withRetryAux f maxRetries (m + 1 + 1) attempt delayMs lastError waits =
          withRetryAux f maxRetries (m + 1) (attempt + 1) (delayMs * 2) (some (es attempt))
            (waits ++ [delayMs]) := by
        conv_lhs => rw [withRetryAux]
        simp [hf, hnr, hlt]
      rw [hunfold, hstep]
      rw [Nat.add_sub_cancel, Nat.add_sub_cancel, geomDelays]
      simp

/-- After `k` retryable failures, a failure at attempt `k` whose message the
classifier flags is raised immediately: the run ends with that error after
exactly `k + 1` calls, having slept only the `k` backoff waits that the
earlier retryable failures caused. -/
theorem withRetryAux_failFast {α : Type} (f : Nat → Except String α) (es : Nat → String)
    (maxRetries : Nat) (e : String) (hnr : isNonRetryableMsg e = true) :
    ∀ k fuel attempt delayMs lastError waits,
      attempt + fuel = maxRetries → k < fuel →
      (∀ i, i < k → f (attempt + i) = .error (es (attempt + i)) ∧
        isNonRetryableMsg (es (attempt + i)) = false) →
      f (attempt + k) = .error e →
      withRetryAux f maxRetries fuel attempt delayMs lastError waits =
        ⟨.error (some e), attempt + k + 1,
          waits ++ (List.range k).map (fun i => delayMs * 2 ^ i)⟩ := by
  intro k
  induction k with
  | zero =>
    intro fuel attempt delayMs lastError waits htot hk _ hfk
    obtain ⟨fl, rfl⟩ : ∃ fl, fuel = fl + 1 := ⟨fuel - 1, by omega⟩
    simp only [Nat.add_zero] at hfk
    simp [withRetryAux, hfk, hnr]
  | succ n ih =>
    intro fuel attempt delayMs lastError waits htot hk hpre hfk
    obtain ⟨fl, rfl⟩ : ∃ fl, fuel = fl + 1 := ⟨fuel - 1, by omega⟩
    obtain ⟨hf0, hnr0⟩ := hpre 0 (by omega)
    simp only [Nat.add_zero] at hf0 hnr0
    have hlt : attempt < maxRetries - 1 := by omega
    have hunfold : withRetryAux f maxRetries (fl + 1) attempt delayMs lastError waits =
        withRetryAux f maxRetries fl (attempt + 1) (delayMs * 2) (some (es attempt))
          (waits ++ [delayMs]) := by
      conv_lhs => rw [withRetryAux]
      simp [hf0, hnr0, hlt]
    have hpre2 : ∀ i, i < n → f (attempt + 1 + i) = .error (es (attempt + 1 + i)) ∧
        isNonRetryableMsg (es (attempt + 1 + i)) = false := by
      intro i hi
      have h := hpre (i + 1) (by omega)
      simpa [Nat.add_assoc, Nat.add_comm 1 i] using h
    have hfk2 : f (attempt + 1 + n) = .error e := by
      have harr : attempt + 1 + n = attempt + (n + 1) := by omega
      rw [harr]
      exact hfk
    have hrec := ih fl (attempt + 1) (delayMs * 2) (some (es attempt)) (waits ++ [delayMs])
      (by omega) (by omega) hpre2 hfk2
    rw [hunfold, hrec, geomDelays]
    have harr2 : attempt + 1 + n + 1 = attempt + (n + 1) + 1 := by omega
    rw [harr2]
    simp

/-- **C1.** An operation wrapped by `withRetry` with attempt bound
`maxRetries` and initial delay `d`: whenever an attempt — at any position
`k` — fails with a message the source classifier flags as invalid/missing
input (the message contains `"Invalid"` or `"Missing"`), that failure is
raised immediately, after exactly `k + 1` calls, with no further attempts and
no wait beyond the `k` backoffs its retryable predecessors caused; and when
every attempt fails retryably the operation is retried exactly
`maxRetries - 1` further times, waiting `d` before the first retry and
doubling before each subsequent one, and the last observed failure is
re-raised after exhaustion. -/
theorem withRetry_retry_policy {α : Type} (f : Nat → Except String α) (es : Nat → String)
    (maxRetries d : Nat) (hmr : 1 ≤ maxRetries) :
    (∀ k e, k < maxRetries →
      (∀ i, i < k → f i = .error (es i) ∧ isNonRetryableMsg (es i) = false) →
      f k = .error e → isNonRetryableMsg e = true →
      withRetry f maxRetries d =
        ⟨.error (some e), k + 1, (List.range k).map (fun i => d * 2 ^ i)⟩) ∧
    ((∀ i, i < maxRetries → f i = .error (es i) ∧ isNonRetryableMsg (es i) = false) →
      withRetry f maxRetries d =
        ⟨.error (some (es (maxRetries - 1))), maxRetries,
          (List.range (maxRetries - 1)).map (fun i => d * 2 ^ i)⟩) := by
  constructor
  · intro k e hk hpre hfk hnr
    have h := withRetryAux_failFast f es maxRetries e hnr k maxRetries 0 d none []
      (by omega) (by omega) (by simpa using hpre) (by simpa using hfk)
    simpa [withRetry] using h
  · intro hfail
    have h := withRetryAux_allFail f es maxRetries hfail maxRetries 0 d none [] hmr (by omega)
    simpa [withRetry] using h

/-- Witness for C1: a retryable failure at attempt 0 followed by a
validation-classified failure at attempt 1 stops after two calls and the one
backoff wait; three retryable failures consume all three attempts with waits
1000 and 2000 ms. -/
theorem withRetry_retry_policy_witness :
    withRetry (fun i => if i = 0 then (.error "boom" : Except String Nat)
        else .error "Invalid input") 3 1000 =
      ⟨.error (some "Invalid input"), 2, [1000]⟩ ∧
    withRetry (fun _ => (.error "boom" : Except String Nat)) 3 1000 =
      ⟨.error (some "boom"), 3, [1000, 2000]⟩ := by
  constructor
  · have h := (withRetry_retry_policy
      (fun i => if i = 0 then (.error "boom" : Except String Nat) else .error "Invalid input")
      (fun _ => "boom") 3 1000 (by omega)).1 1 "Invalid input" (by omega)
      (by intro i hi; interval_cases i; exact ⟨rfl, by decide⟩) rfl (by decide)
    rw [h]
    rfl
  · have h := (withRetry_retry_policy (fun _ => (.error "boom" : Except String Nat))
      (fun _ => "boom") 3 1000 (by omega)).2
    have h2 := h (by intro i hi; exact ⟨rfl, by decide⟩)
    rw [h2]
    rfl

/-- Prediction status values of the Replicate API (lib/replicate). -/
inductive PredStatus where
  | starting
  | processing
  | succeeded
  | failed
  | canceled
deriving Repr, DecidableEq

/-- A Replicate prediction as seen by `pollPrediction`; `output` stands in for
the opaque `unknown` output payload. -/
structure Prediction where
  id : String
  status : PredStatus
  output : Option String
  error : Option String
deriving Repr, DecidableEq

/-- JS template piece `${prediction.error || 'Unknown error'}`. -/
def predErrText (p : Prediction) : String :=
  match p.error with
  | some e => if e = "" then "Unknown error" else e
  | none => "Unknown error"

/-- JS string interpolation of a status value. -/
def predStatusText : PredStatus → String
  | .starting => "starting"
  | .processing => "processing"
  | .succeeded => "succeeded"
  | .failed => "failed"
  | .canceled => "canceled"

/-- Result of `pollPrediction`, together with the list of waits (ms) slept
between polls. -/
inductive PollResult where
  | done (p : Prediction) (waits : List ℚ)
  | failure (msg : String) (waits : List ℚ)
deriving Repr, DecidableEq

/-- `p` is in none of the three terminal states. -/
def nonTerminalStatus (p : Prediction) : Prop :=
  p.status ≠ .succeeded ∧ p.status ≠ .failed ∧ p.status ≠ .canceled

/-- Loop body of `pollPrediction` (lib/replicate lines 72-101).  `get i` is the
prediction returned by the `i`-th `replicate.predictions.get` call; `fuel` is
`maxAttempts - attempts`.  Delays are exact: the JS doubles that arise from
`1000 * 1.5^k` bounded by `10000` are dyadic rationals represented exactly, so
`ℚ` arithmetic is faithful. -/
def pollPredictionAux (get : Nat → Prediction) : Nat → Nat → ℚ → List ℚ → PollResult
  | 0, _iter, _delayMs, waits => .failure "Prediction timed out" waits
  | fuel + 1, iter, delayMs, waits =>
    if (get iter).status = .succeeded then .done (get iter) waits
    else if (get iter).status = .failed ∨ (get iter).status = .canceled then
      .failure ("Prediction " ++ predStatusText (get iter).status ++ ": " ++
        predErrText (get iter)) waits
    else
      pollPredictionAux get fuel (iter + 1) (min (delayMs * (3 / 2)) 10000) (waits ++ [delayMs])

/-- `pollPrediction(replicate, id, maxAttempts, initialDelayMs)`; the source
defaults are `maxAttempts = 60`, `initialDelayMs = 1000`. -/
def pollPrediction (get : Nat → Prediction) (maxAttempts : Nat) (initialDelayMs : ℚ) :
    PollResult :=
  pollPredictionAux get maxAttempts 0 initialDelayMs []

/-- Delay before the `k`-th wait of the polling loop: starts at `d`, and after
each wait is multiplied by 1.5 and capped at 10000 ms. -/
def pollDelay (d : ℚ) : Nat → ℚ
  | 0 => d
  | k + 1 => min (pollDelay d k * (3 / 2)) 10000

theorem pollDelay_shift (d : ℚ) :
    ∀ k, pollDelay (min (d * (3 / 2)) 10000) k = pollDelay d (k + 1) := by
  intro k
  induction k with
  | zero => rfl
  | succ m ih => simp only [pollDelay, ih]

theorem pollDelay_cons (d : ℚ) (m : Nat) :
    (List.range (m + 1)).map (pollDelay d) =
      d :: (List.range m).map (pollDelay (min (d * (3 / 2)) 10000)) := by
  rw [List.range_succ_eq_map, List.map_cons, List.map_map]
  simp only [List.cons.injEq]
  refine ⟨rfl, List.map_congr_left ?_⟩
  intro i _
  simp [Function.comp, pollDelay_shift]

/-- Skipping `k` non-terminal polls advances the iterator, accumulates the
delay schedule and updates the current delay. -/
theorem pollPredictionAux_skip (get : Nat → Prediction) :
    ∀ (k fuel iter : Nat) (d : ℚ) (waits : List ℚ), k ≤ fuel →
      (∀ i, i < k → nonTerminalStatus (get (iter + i))) →
      pollPredictionAux get fuel iter d waits =
        pollPredictionAux get (fuel - k) (iter + k) (pollDelay d k)
          (waits ++ (List.range k).map (pollDelay d)) := by
  intro k
  induction k with
  | zero => intro fuel iter d waits _ _; simp [pollDelay]
  | succ n ih =>
    intro fuel iter d waits hk hnt
    obtain ⟨f, rfl⟩ : ∃ f, fuel = f + 1 := ⟨fuel - 1, by omega⟩
    obtain ⟨h1, h2, h3⟩ := hnt 0 (by omega)
    simp only [Nat.add_zero] at h1 h2 h3
    have hstep : pollPredictionAux get (f + 1) iter d waits =
        pollPredictionAux get f (iter + 1) (min (d * (3 / 2)) 10000) (waits ++ [d]) := by
      simp [pollPredictionAux, h1, h2, h3]
    rw [hstep, ih f (iter + 1) (min (d * (3 / 2)) 10000) (waits ++ [d]) (by omega)
      (by intro i hi; have := hnt (i + 1) (by omega); simpa [Nat.add_assoc, Nat.add_comm 1 i] using this)]
    rw [pollDelay_cons, pollDelay_shift]
    have harith : f + 1 - (n + 1) = f - n := by omega
    have hiter : iter + 1 + n = iter + (n + 1) := by omega
    rw [harith, hiter]
    simp

/-- A terminal poll at the head of the loop returns immediately. -/
theorem pollPredictionAux_terminal (get : Nat → Prediction) (fuel iter : Nat) (d : ℚ)
    (waits : List ℚ) (hfuel : 1 ≤ fuel) :
    ((get iter).status = .succeeded →
      pollPredictionAux get fuel iter d waits = .done (get iter) waits) ∧
    ((get iter).status = .failed →
      pollPredictionAux get fuel iter d waits =
        .failure ("Prediction failed: " ++ predErrText (get iter)) waits) ∧
    ((get iter).status = .canceled →
      pollPredictionAux get fuel iter d waits =
        .failure ("Prediction canceled: " ++ predErrText (get iter)) waits) := by
  obtain ⟨f, rfl⟩ : ∃ f, fuel = f + 1 := ⟨fuel - 1, by omega⟩
  refine ⟨fun h => by simp [pollPredictionAux, h], fun h => ?_, fun h => ?_⟩
  · simp [pollPredictionAux, h, predStatusText]
  · simp [pollPredictionAux, h, predStatusText]

/-- **C5.** `pollPrediction` with the source defaults (60 attempts, 1 second
initial delay) polls at intervals `pollDelay 1000 k` — starting at 1000 ms,
multiplied by 1.5 after each poll and capped at 10000 ms, the cap stated as
the bound conjunct — and: a first terminal poll `succeeded` returns that
prediction; a first terminal poll `failed`/`canceled` produces a descriptive
error; 60 non-terminal polls produce the timeout error. -/
theorem pollPrediction_spec (get : Nat → Prediction) :
    (∀ k, k < 60 → (∀ i, i < k → nonTerminalStatus (get i)) →
      ((get k).status = .succeeded →
        pollPrediction get 60 1000 = .done (get k) ((List.range k).map (pollDelay 1000))) ∧
      ((get k).status = .failed →
        pollPrediction get 60 1000 =
          .failure ("Prediction failed: " ++ predErrText (get k))
            ((List.range k).map (pollDelay 1000))) ∧
      ((get k).status = .canceled →
        pollPrediction get 60 1000 =
          .failure ("Prediction canceled: " ++ predErrText (get k))
            ((List.range k).map (pollDelay 1000)))) ∧
    ((∀ i, i < 60 → nonTerminalStatus (get i)) →
      pollPrediction get 60 1000 =
        .failure "Prediction timed out" ((List.range 60).map (pollDelay 1000))) ∧
    (pollDelay 1000 0 = 1000 ∧ ∀ k, pollDelay 1000 k ≤ 10000) := by
  refine ⟨?_, ?_, rfl, ?_⟩
  · intro k hk hnt
    have hskip := pollPredictionAux_skip get k 60 0 1000 [] (by omega)
      (by intro i hi; simpa using hnt i hi)
    have hterm := pollPredictionAux_terminal get (60 - k) k (pollDelay 1000 k)
      ((List.range k).map (pollDelay 1000)) (by omega)
    simp only [Nat.zero_add, List.nil_append] at hskip
    exact ⟨fun h => by rw [pollPrediction, hskip]; exact hterm.1 h,
      fun h => by rw [pollPrediction, hskip]; exact hterm.2.1 h,
      fun h => by rw [pollPrediction, hskip]; exact hterm.2.2 h⟩
  · intro hnt
    have hskip := pollPredictionAux_skip get 60 60 0 1000 [] (by omega)
      (by intro i hi; simpa using hnt i hi)
    simp only [Nat.zero_add, List.nil_append, Nat.sub_self] at hskip
    rw [pollPrediction, hskip]
    rfl
  · intro k
    induction k with
    | zero => norm_num [pollDelay]
    | succ m _ => simp only [pollDelay]; exact min_le_right _ _

/-- Witness for C5: two `processing` polls then `succeeded`: the prediction is
returned and the waits are 1000 ms then 1500 ms. -/
theorem pollPrediction_spec_witness :
    pollPrediction
      (fun i => if i < 2 then ⟨"p1", .processing, none, none⟩
        else ⟨"p1", .succeeded, some "https://x/mesh.glb", none⟩) 60 1000 =
      .done ⟨"p1", .succeeded, some "https://x/mesh.glb", none⟩ [1000, 1500] := by
  have h := ((pollPrediction_spec
    (fun i => if i < 2 then ⟨"p1", .processing, none, none⟩
      else ⟨"p1", .succeeded, some "https://x/mesh.glb", none⟩)).1 2 (by omega)
    (by intro i hi; interval_cases i <;> exact ⟨by decide, by decide, by decide⟩)).1 (by decide)
  rw [h]
  norm_num [pollDelay, List.range_succ]

/-- A JSON-ish JavaScript value as the Replicate SDK can return it. -/
inductive JSValue where
  | str (s : String)
  | num (n : Int)
  | boolean (b : Bool)
  | null
  | undefined
  | arr (elems : List JSValue)
  | obj (fields : List (String × JSValue))

/-- JS truthiness. -/
def jsTruthy : JSValue → Bool
  | .str s => s != ""
  | .num n => n != 0
  | .boolean b => b
  | .null => false
  | .undefined => false
  | .arr _ => true
  | .obj _ => true

/-- JS `typeof`. -/
def jsTypeof : JSValue → String
  | .str _ => "string"
  | .num _ => "number"
  | .boolean _ => "boolean"
  | .null => "object"
  | .undefined => "undefined"
  | .arr _ => "object"
  | .obj _ => "object"

mutual
/-- JS `String(v)` conversion for the values we model (arrays render as their
comma-joined elements, objects as `[object Object]`). -/
def jsToString : JSValue → String
  | .str s => s
  | .num n => toString n
  | .boolean b => if b then "true" else "false"
  | .null => "null"
  | .undefined => "undefined"
  | .arr xs => jsArrayBody xs
  | .obj _ => "[object Object]"

/-- JS `Array.prototype.join(",")`, which renders `null`/`undefined` elements
as empty strings. -/
def jsArrayBody : List JSValue → String
  | [] => ""
  | [.null] => ""
  | [.undefined] => ""
  | [x] => jsToString x
  | .null :: xs => "," ++ jsArrayBody xs
  | .undefined :: xs => "," ++ jsArrayBody xs
  | x :: xs => jsToString x ++ "," ++ jsArrayBody xs
end

/-- The route handler's mesh-suffix test:
`item.endsWith('.ply') || item.endsWith('.obj') || item.endsWith('.glb')`. -/
def isMeshUrl (s : String) : Bool :=
  strEndsWith s ".ply" || strEndsWith s ".obj" || strEndsWith s ".glb"

/-- `output.find(item => typeof item === 'string' && (…mesh suffix…))`. -/
def findMeshEntry : List JSValue → Option String
  | [] => none
  | .str s :: xs => if isMeshUrl s then some s else findMeshEntry xs
  | _ :: xs => findMeshEntry xs

/-- JS `a || b` on values: `a` when truthy, else `b`. -/
def jsOrElse (a b : JSValue) : JSValue :=
  if jsTruthy a then a else b

/-- JS property read `obj[k]` on our object model (`undefined` when absent).
Field lists represent JS objects, so keys are distinct. -/
def objGet (fields : List (String × JSValue)) (k : String) : JSValue :=
  (fields.lookup k).getD .undefined

/-- `Object.values(obj)[0]` (`undefined` for an empty object). -/
def objFirstValue (fields : List (String × JSValue)) : JSValue :=
  ((fields.head?).map Prod.snd).getD .undefined

/-- Final guard of the route handler's normalization:
`if (!modelUrl || typeof modelUrl !== 'string') throw new Error('Invalid model URL: …')`
(the `JSON.stringify` payload interpolated into the message is omitted — no
claim depends on it). -/
def modelUrlGuard (v : JSValue) : Except String String :=
  if ¬ jsTruthy v then .error "Invalid model URL"
  else match v with
    | .str s => .ok s
    | _ => .error "Invalid model URL"

/-- Output normalization of the generate route handler
(api/generate/route.ts lines 86-108): a bare string is kept; an array
contributes the first string entry with a mesh suffix, else its last element
(`String()`-coerced when not a string); an object contributes
`obj.mesh || obj.model || obj.output || obj.url || Object.values(obj)[0]`;
any other shape throws `Unexpected output format`; the final guard insists on
a truthy string. -/
def normalizeOutput : JSValue → Except String String
  | .str s => modelUrlGuard (.str s)
  | .arr xs =>
    let lastItem : JSValue := (xs.getLast?).getD .undefined
    let fallback : JSValue :=
      match lastItem with
      | .str s => .str s
      | v => .str (jsToString v)
    let modelUrl : JSValue :=
      match findMeshEntry xs with
      | some s => jsOrElse (.str s) fallback
      | none => fallback
    modelUrlGuard modelUrl
  | .obj fields =>
    modelUrlGuard (jsOrElse (objGet fields "mesh") (jsOrElse (objGet fields "model")
      (jsOrElse (objGet fields "output") (jsOrElse (objGet fields "url")
        (objFirstValue fields)))))
  | v => .error ("Unexpected output format: " ++ jsTypeof v)

/-- The mesh value computed by `runTripoSR` (lib/replicate lines 33-61) from
the raw model output: a bare string is the mesh URL; a *non-empty array*
contributes its FIRST element (`output[0] as string`, an unchecked cast); an
object contributes its `mesh` field when that key is present
(`'mesh' in output`); every other shape throws. -/
def runTripoSRMesh : JSValue → Except String JSValue
  | .str s => .ok (.str s)
  | .arr xs =>
    if xs.length > 0 then .ok ((xs.head?).getD .undefined)
    else .error "Unexpected output format from TripoSR model"
  | .obj fields =>
    if (fields.lookup "mesh").isSome then .ok (objGet fields "mesh")
    else .error "Unexpected output format from TripoSR model"
  | _ => .error "Unexpected output format from TripoSR model"

/-- `modelUrl.split('.').pop()?.toLowerCase() || 'glb'` (route line 115). -/
def urlExtOf (modelUrl : String) : String :=
  let raw := jsToLower (((jsSplit modelUrl ".").getLast?).getD "")
  if raw = "" then "glb" else raw

/-- The route's content-type table with its `'application/octet-stream'`
fallback (route lines 119-129). -/
def contentTypeFor (ext : String) : String :=
  if ext = "glb" then "model/gltf-binary"
  else if ext = "gltf" then "model/gltf+json"
  else if ext = "obj" then "text/plain"
  else if ext = "ply" then "application/x-ply"
  else "application/octet-stream"

/-- The uploaded form file as the route handler sees it: declared content
type and declared size in bytes. -/
structure UploadFile where
  type : String
  size : Nat
deriving Repr, DecidableEq

/-- Outcomes of the external calls the generate route makes, one per call
site.  Supabase calls resolve with an error object (`Option String`, `none`
meaning success); `replicate.run` / `fetch` / `downscaleImage` can reject
(`Except`).  The results of the two status-update writes are recorded here
but, exactly as in the source, never inspected by the handler. -/
structure RouteEnv where
  downscaleR : Except String Unit
  imageUploadErr : Option String
  recordInsertErr : Option String
  inferenceR : Except String JSValue
  meshFetchR : Except String Unit
  modelUploadErr : Option String
  modelInsertErr : Option String
  statusFailedErr : Option String
  statusCompletedErr : Option String

/-- Side effects of one route run, in order of execution. -/
inductive RouteEffect where
  | downscale
  | imageBlobUpload
  | uploadRecordInsert
  | inferenceCall
  | meshFetch
  | modelBlobUpload (ext contentType : String)
  | modelRecordInsert
  | statusUpdate (status : String)
deriving Repr, DecidableEq

/-- HTTP response of the route, reduced to status code and `error` message. -/
inductive RouteResponse where
  | success (status : Nat)
  | failure (status : Nat) (msg : String)
deriving Repr, DecidableEq

/-- The generate route handler (api/generate/route.ts, first document,
lines 9-185), as response plus ordered effect trace.  Client construction
(`createServerClient` / `getReplicateClient`) is configuration lookup, not a
network or storage call, and is modelled as succeeding; `formData` parsing
likewise.  Validation (no file → 400; non-`image/*` type → 400) precedes
every effect.  Inside the generation `try`, any failure of the inference
call, of output normalization, of the mesh fetch or of the mesh blob upload
is caught after writing `status = 'failed'`; a model-record insert error is
only logged; the happy path writes `status = 'completed'`. -/
def generatePOST (file? : Option UploadFile) (env : RouteEnv) :
    RouteResponse × List RouteEffect :=
  match file? with
  | none => (.failure 400 "No image provided", [])
  | some file =>
    if ¬ strStartsWith file.type "image/" then (.failure 400 "File must be an image", [])
    else
      match env.downscaleR with
      | .error _ => (.failure 500 "Internal server error", [.downscale])
      | .ok _ =>
      match env.imageUploadErr with
      | some _ => (.failure 500 "Failed to upload image", [.downscale, .imageBlobUpload])
      | none =>
      match env.recordInsertErr with
      | some _ => (.failure 500 "Failed to create record",
          [.downscale, .imageBlobUpload, .uploadRecordInsert])
      | none =>
        let pre : List RouteEffect := [.downscale, .imageBlobUpload, .uploadRecordInsert]
        match env.inferenceR with
        | .error _ => (.failure 500 "Failed to generate 3D model",
            pre ++ [.inferenceCall, .statusUpdate "failed"])
        | .ok output =>
          match normalizeOutput output with
          | .error _ => (.failure 500 "Failed to generate 3D model",
              pre ++ [.inferenceCall, .statusUpdate "failed"])
          | .ok modelUrl =>
            match env.meshFetchR with
            | .error _ => (.failure 500 "Failed to generate 3D model",
                pre ++ [.inferenceCall, .meshFetch, .statusUpdate "failed"])
            | .ok _ =>
              let ext := urlExtOf modelUrl
              let pre2 := pre ++ [.inferenceCall, .meshFetch,
                .modelBlobUpload ext (contentTypeFor ext)]
              match env.modelUploadErr with
              | some _ => (.failure 500 "Failed to generate 3D model",
                  pre2 ++ [.statusUpdate "failed"])
              | none =>
                (.success 200, pre2 ++ [.modelRecordInsert, .statusUpdate "completed"])

/-- A nonempty mesh suffix forces a nonempty string. -/
theorem isMeshUrl_ne_empty {s : String} (h : isMeshUrl s = true) : s ≠ "" := by
  intro hs
  subst hs
  exact absurd h (by decide)

/-- `findMeshEntry` returns the first string entry with a mesh suffix. -/
theorem findMeshEntry_eq_some (xs : List JSValue) :
    ∀ (j : Nat) (s : String), xs[j]? = some (.str s) → isMeshUrl s = true →
      (∀ i s', i < j → xs[i]? = some (.str s') → isMeshUrl s' = false) →
      findMeshEntry xs = some s := by
  induction xs with
  | nil => intro j s h _ _; simp at h
  | cons x t ih =>
    intro j s hj hmesh hfirst
    cases j with
    | zero =>
      simp only [List.getElem?_cons_zero, Option.some.injEq] at hj
      subst hj
      simp [findMeshEntry, hmesh]
    | succ m =>
      have hj' : t[m]? = some (.str s) := by simpa using hj
      have hrest : ∀ i s', i < m → t[i]? = some (.str s') → isMeshUrl s' = false := by
        intro i s' hi h
        exact hfirst (i + 1) s' (by omega) (by simpa using h)
      have htail := ih m s hj' hmesh hrest
      cases x with
      | str s0 =>
        have h0 : isMeshUrl s0 = false := hfirst 0 s0 (by omega) (by simp)
        simpa [findMeshEntry, h0] using htail
      | num n => simpa [findMeshEntry] using htail
      | boolean b => simpa [findMeshEntry] using htail
      | null => simpa [findMeshEntry] using htail
      | undefined => simpa [findMeshEntry] using htail
      | arr es => simpa [findMeshEntry] using htail
      | obj fs => simpa [findMeshEntry] using htail

/-- With no matching string entry, `findMeshEntry` finds nothing. -/
theorem findMeshEntry_eq_none (xs : List JSValue)
    (h : ∀ (i : Nat) (s' : String), xs[i]? = some (JSValue.str s') → isMeshUrl s' = false) :
    findMeshEntry xs = none := by
  induction xs with
  | nil => rfl
  | cons x t ih =>
    have htail := ih (fun i s' hi => h (i + 1) s' (by simpa using hi))
    cases x with
    | str s0 =>
      have h0 : isMeshUrl s0 = false := h 0 s0 (by simp)
      simpa [findMeshEntry, h0] using htail
    | num n => simpa [findMeshEntry] using htail
    | boolean b => simpa [findMeshEntry] using htail
    | null => simpa [findMeshEntry] using htail
    | undefined => simpa [findMeshEntry] using htail
    | arr es => simpa [findMeshEntry] using htail
    | obj fs => simpa [findMeshEntry] using htail

/-- The final guard accepts exactly nonempty strings. -/
theorem modelUrlGuard_ok {v : JSValue} {s : String} (h : modelUrlGuard v = .ok s) :
    v = .str s ∧ s ≠ "" := by
  by_cases ht : jsTruthy v = true
  · cases v with
    | str s0 =>
      have h' : s0 = s := by simpa [modelUrlGuard, ht] using h
      subst h'
      exact ⟨rfl, by simpa [jsTruthy, bne_iff_ne] using ht⟩
    | num n => simp [modelUrlGuard, ht] at h
    | boolean b => simp [modelUrlGuard, ht] at h
    | null => simp [modelUrlGuard, ht] at h
    | undefined => simp [modelUrlGuard, ht] at h
    | arr es => simp [modelUrlGuard, ht] at h
    | obj fs => simp [modelUrlGuard, ht] at h
  · simp [modelUrlGuard, ht] at h

/-- `jsOrElse` returns one of its two arguments. -/
theorem jsOrElse_cases (a b : JSValue) : jsOrElse a b = a ∨ jsOrElse a b = b := by
  unfold jsOrElse
  split_ifs <;> simp

/-- An `objGet` hit pins down the lookup. -/
theorem objGet_eq_str {fields : List (String × JSValue)} {k : String} {s : String}
    (h : objGet fields k = .str s) : fields.lookup k = some (.str s) := by
  unfold objGet at h
  cases hl : fields.lookup k with
  | none => rw [hl] at h; cases h
  | some w => rw [hl] at h; simpa using h

/-- **C2 (amended).** The generate route handler's normalization: a nonempty
bare string resolves to itself; an array resolves to its first string entry
with a known mesh suffix (`.ply`/`.obj`/`.glb`), falling back to its last
element; a successfully resolved object yields the value of one of the keys
`mesh`/`model`/`output`/`url` or its first value, and a nonempty-string
`mesh` value wins; shapes that do not resolve to a (truthy) string are hard
failures.  (The `runTripoSRMesh` wrapper cited by the claim behaves
differently — see the counterexample.) -/
theorem normalizeOutput_shapes :
    (∀ s : String, s ≠ "" → normalizeOutput (.str s) = .ok s) ∧
    (∀ (xs : List JSValue) (j : Nat) (s : String),
      xs[j]? = some (JSValue.str s) → isMeshUrl s = true →
      (∀ (i : Nat) (s' : String), i < j → xs[i]? = some (JSValue.str s') →
        isMeshUrl s' = false) →
      normalizeOutput (.arr xs) = .ok s) ∧
    (∀ (xs : List JSValue) (s : String),
      (∀ (i : Nat) (s' : String), xs[i]? = some (JSValue.str s') → isMeshUrl s' = false) →
      xs.getLast? = some (JSValue.str s) → s ≠ "" →
      normalizeOutput (.arr xs) = .ok s) ∧
    (∀ (fields : List (String × JSValue)) (s : String),
      fields.lookup "mesh" = some (JSValue.str s) → s ≠ "" →
      normalizeOutput (.obj fields) = .ok s) ∧
    (∀ (fields : List (String × JSValue)) (s : String),
      normalizeOutput (.obj fields) = .ok s →
      fields.lookup "mesh" = some (JSValue.str s) ∨
      fields.lookup "model" = some (JSValue.str s) ∨
      fields.lookup "output" = some (JSValue.str s) ∨
      fields.lookup "url" = some (JSValue.str s) ∨
      (∃ k, fields.head? = some (k, JSValue.str s))) ∧
    ((∀ n : Int, (normalizeOutput (.num n)).isOk = false) ∧
      (∀ b : Bool, (normalizeOutput (.boolean b)).isOk = false) ∧
      (normalizeOutput .null).isOk = false ∧
      (normalizeOutput .undefined).isOk = false ∧
      normalizeOutput (.obj [("unrelated", .num 123)]) = .error "Invalid model URL") := by
  refine ⟨?_, ?_, ?_, ?_, ?_, fun n => rfl, fun b => rfl, rfl, rfl, rfl⟩
  · intro s hs
    simp [normalizeOutput, modelUrlGuard, jsTruthy, bne_iff_ne, hs]
  · intro xs j s hj hmesh hfirst
    have hfind := findMeshEntry_eq_some xs j s hj hmesh hfirst
    have hs := isMeshUrl_ne_empty hmesh
    simp [normalizeOutput, hfind, jsOrElse, jsTruthy, bne_iff_ne, hs, modelUrlGuard]
  · intro xs s hnone hlast hs
    have hfind := findMeshEntry_eq_none xs hnone
    simp [normalizeOutput, hfind, hlast, modelUrlGuard, jsTruthy, bne_iff_ne, hs]
  · intro fields s hmesh hs
    have hget : objGet fields "mesh" = .str s := by simp [objGet, hmesh]
    simp [normalizeOutput, hget, jsOrElse, jsTruthy, bne_iff_ne, hs, modelUrlGuard]
  · intro fields s h
    simp only [normalizeOutput] at h
    obtain ⟨hv, _⟩ := modelUrlGuard_ok h
    rcases jsOrElse_cases (objGet fields "mesh") (jsOrElse (objGet fields "model")
      (jsOrElse (objGet fields "output") (jsOrElse (objGet fields "url")
        (objFirstValue fields)))) with h1 | h1 <;> rw [h1] at hv
    · exact Or.inl (objGet_eq_str hv)
    · rcases jsOrElse_cases (objGet fields "model")
        (jsOrElse (objGet fields "output") (jsOrElse (objGet fields "url")
          (objFirstValue fields))) with h2 | h2 <;> rw [h2] at hv
      · exact Or.inr (Or.inl (objGet_eq_str hv))
      · rcases jsOrElse_cases (objGet fields "output")
          (jsOrElse (objGet fields "url") (objFirstValue fields)) with h3 | h3 <;>
          rw [h3] at hv
        · exact Or.inr (Or.inr (Or.inl (objGet_eq_str hv)))
        · rcases jsOrElse_cases (objGet fields "url") (objFirstValue fields) with h4 | h4 <;>
            rw [h4] at hv
          · exact Or.inr (Or.inr (Or.inr (Or.inl (objGet_eq_str hv))))
          · refine Or.inr (Or.inr (Or.inr (Or.inr ?_)))
            unfold objFirstValue at hv
            cases hh : fields.head? with
            | none => rw [hh] at hv; cases hv
            | some p =>
              obtain ⟨k, w⟩ := p
              rw [hh] at hv
              simp only [Option.map_some', Option.getD_some] at hv
              exact ⟨k, by rw [hv]⟩

/-- Witness for C2: the spec's own array example resolves to its mesh entry
under the route handler's normalization. -/
theorem normalizeOutput_shapes_witness :
    normalizeOutput (.arr [.str "preview.gif", .str "mesh.obj"]) = .ok "mesh.obj" := by
  refine normalizeOutput_shapes.2.1 [.str "preview.gif", .str "mesh.obj"] 1 "mesh.obj"
    rfl (by decide) ?_
  intro i s' hi h
  interval_cases i
  simp at h
  subst h
  decide

/-- Counterexample for C2: on the claim's own array example
`["preview.gif", "mesh.obj"]`, the `runTripoSR` gateway wrapper (also cited
by the claim) resolves to the FIRST element `preview.gif`, not to the entry
with a mesh suffix, so the two cited normalizers disagree and the claim as
stated fails for `runTripoSR`. -/
theorem runTripoSRMesh_first_element_counterexample :
    runTripoSRMesh (.arr [.str "preview.gif", .str "mesh.obj"]) = .ok (.str "preview.gif") ∧
    normalizeOutput (.arr [.str "preview.gif", .str "mesh.obj"]) = .ok "mesh.obj" ∧
    isMeshUrl "preview.gif" = false ∧ isMeshUrl "mesh.obj" = true ∧
    ("preview.gif" : String) ≠ "mesh.obj" := by
  exact ⟨rfl, rfl, by decide, by decide, by decide⟩

/-- Client-side validation outcome of `ImageUpload.handleFile`. -/
inductive ClientValidation where
  | notImage
  | tooLarge
  | accepted
deriving Repr, DecidableEq

/-- The checks of `ImageUpload.handleFile` (ImageUpload.tsx lines 17-39):
reject a non-`image/*` type, then reject `file.size > 10 * 1024 * 1024`. -/
def handleFileCheck (file : UploadFile) : ClientValidation :=
  if ¬ strStartsWith file.type "image/" then .notImage
  else if file.size > 10 * 1024 * 1024 then .tooLarge
  else .accepted

/-- A route environment in which every external call succeeds and the gateway
returns a bare GLB URL. -/
def happyEnv : RouteEnv :=
  ⟨.ok (), none, none, .ok (.str "https://x/model.glb"), .ok (), none, none, none, none⟩

/-- **C3 (amended).** The generate route validates only presence and content
type: a missing file and a non-`image/*` type give a 400 before any effect;
any `image/*` file of any declared size passes route validation (the run
proceeds to the downscale and later effects).  The 10 MB limit is enforced
only client-side, in `ImageUpload.handleFile`: an image over the limit is
rejected there, an image at or under it is accepted. -/
theorem generate_validation_spec :
    (∀ env, generatePOST none env = (.failure 400 "No image provided", [])) ∧
    (∀ env file, strStartsWith file.type "image/" = false →
      generatePOST (some file) env = (.failure 400 "File must be an image", [])) ∧
    (∀ env file, strStartsWith file.type "image/" = true →
      ∃ rest, (generatePOST (some file) env).2 = RouteEffect.downscale :: rest) ∧
    (∀ file, strStartsWith file.type "image/" = true → file.size ≤ 10 * 1024 * 1024 →
      handleFileCheck file = .accepted) ∧
    (∀ file, strStartsWith file.type "image/" = true → 10 * 1024 * 1024 < file.size →
      handleFileCheck file = .tooLarge) ∧
    (∀ file, strStartsWith file.type "image/" = false →
      handleFileCheck file = .notImage) := by
  refine ⟨fun env => rfl, ?_, ?_, ?_, ?_, ?_⟩
  · intro env file h
    simp [generatePOST, h]
  · intro env file h
    obtain ⟨dR, iU, rI, inf, mF, mU, mI, sF, sC⟩ := env
    simp only [generatePOST, h, Bool.true_eq_false, not_false_eq_true, if_false]
    cases dR with
    | error e => exact ⟨_, rfl⟩
    | ok u =>
      cases iU with
      | some e => exact ⟨_, rfl⟩
      | none =>
        cases rI with
        | some e => exact ⟨_, rfl⟩
        | none =>
          cases inf with
          | error e => exact ⟨_, rfl⟩
          | ok output =>
            cases hno : normalizeOutput output with
            | error e => simp only [hno]; exact ⟨_, rfl⟩
            | ok u' =>
              simp only [hno]
              cases mF with
              | error e => exact ⟨_, rfl⟩
              | ok uu =>
                cases mU with
                | some e => exact ⟨_, rfl⟩
                | none => exact ⟨_, rfl⟩
  · intro file h hsize
    have hn : ¬ file.size > 10 * 1024 * 1024 := by omega
    simp [handleFileCheck, h, hn]
  · intro file h hsize
    simp [handleFileCheck, h, hsize]
  · intro file h
    simp [handleFileCheck, h]

/-- Witness for C3 (amended): a tiny text file is rejected by the route with
no effects, and a 1 kB PNG is accepted client-side. -/
theorem generate_validation_spec_witness :
    generatePOST (some ⟨"text/plain", 5⟩) happyEnv =
      (.failure 400 "File must be an image", []) ∧
    handleFileCheck ⟨"image/png", 1024⟩ = .accepted := by
  exact ⟨generate_validation_spec.2.1 happyEnv ⟨"text/plain", 5⟩ (by decide),
    generate_validation_spec.2.2.2.1 ⟨"image/png", 1024⟩ (by decide) (by decide)⟩

/-- Counterexample for C3: an 11 MB PNG — over the claimed 10 MB hard limit —
passes the route's validation and the pipeline performs its blob upload,
record insert and inference call, completing successfully: the route has no
size check, so an oversized payload does NOT get a validation error with no
network or storage calls. -/
theorem generate_no_size_check_counterexample :
    generatePOST (some ⟨"image/png", 11 * 1024 * 1024⟩) happyEnv =
      (.success 200,
        [.downscale, .imageBlobUpload, .uploadRecordInsert, .inferenceCall, .meshFetch,
          .modelBlobUpload "glb" "model/gltf-binary", .modelRecordInsert,
          .statusUpdate "completed"]) ∧
    10 * 1024 * 1024 < 11 * 1024 * 1024 := by
  exact ⟨rfl, by omega⟩

/-- Some step of the generation `try` block failed: the inference call
rejected, its output failed normalization, the mesh fetch rejected, or the
mesh blob upload errored. -/
def genStepFailed (env : RouteEnv) : Prop :=
  (∃ e, env.inferenceR = .error e) ∨
  (∃ output e, env.inferenceR = .ok output ∧ normalizeOutput output = .error e) ∨
  (∃ output u e, env.inferenceR = .ok output ∧ normalizeOutput output = .ok u ∧
    env.meshFetchR = .error e) ∨
  (∃ output u e, env.inferenceR = .ok output ∧ normalizeOutput output = .ok u ∧
    env.meshFetchR = .ok () ∧ env.modelUploadErr = some e)

/-- **C4 (amended).** For a run that reaches the generation `try` block: a
failure of the inference call, the output normalization, the mesh fetch or
the mesh blob upload writes `status = 'failed'` as the final effect before
the 500 error is surfaced, and no `completed` status is written; the
`completed` status is written exactly when inference, normalization, mesh
fetch and mesh blob upload all succeed — regardless of the model-record
insert outcome (see the counterexample); and the outcomes of the two
status-update writes themselves never change the response or the effect
trace (they are ignored, never escalated). -/
theorem generate_failed_status_spec :
    (∀ env file, strStartsWith file.type "image/" = true →
      env.downscaleR = .ok () → env.imageUploadErr = none → env.recordInsertErr = none →
      genStepFailed env →
      (generatePOST (some file) env).1 = .failure 500 "Failed to generate 3D model" ∧
      (∃ pre, (generatePOST (some file) env).2 = pre ++ [.statusUpdate "failed"]) ∧
      RouteEffect.statusUpdate "completed" ∉ (generatePOST (some file) env).2) ∧
    (∀ env file, strStartsWith file.type "image/" = true →
      RouteEffect.statusUpdate "completed" ∈ (generatePOST (some file) env).2 →
      env.downscaleR = .ok () ∧ env.imageUploadErr = none ∧ env.recordInsertErr = none ∧
      (∃ output u, env.inferenceR = .ok output ∧ normalizeOutput output = .ok u) ∧
      env.meshFetchR = .ok () ∧ env.modelUploadErr = none) ∧
    (∀ env file e₁ e₂, generatePOST (some file)
        { env with statusFailedErr := e₁, statusCompletedErr := e₂ } =
      generatePOST (some file) env) := by
  refine ⟨?_, ?_, fun env file e₁ e₂ => rfl⟩
  · intro env file h hd hi hr hfail
    obtain ⟨dR, iU, rI, inf, mF, mU, mI, sF, sC⟩ := env
    simp only at hd hi hr
    subst hd; subst hi; subst hr
    rcases hfail with ⟨e, he⟩ | ⟨output, e, ho, hn⟩ | ⟨output, u, e, ho, hn, hm⟩ |
      ⟨output, u, e, ho, hn, hm, hup⟩
    · simp only at he
      subst he
      refine ⟨by simp [generatePOST, h], ⟨[.downscale, .imageBlobUpload,
        .uploadRecordInsert, .inferenceCall], by simp [generatePOST, h]⟩, ?_⟩
      simp [generatePOST, h]
    · simp only at ho
      subst ho
      refine ⟨by simp [generatePOST, h, hn], ⟨[.downscale, .imageBlobUpload,
        .uploadRecordInsert, .inferenceCall], by simp [generatePOST, h, hn]⟩, ?_⟩
      simp [generatePOST, h, hn]
    · simp only at ho hm
      subst ho; subst hm
      refine ⟨by simp [generatePOST, h, hn], ⟨[.downscale, .imageBlobUpload,
        .uploadRecordInsert, .inferenceCall, .meshFetch], by simp [generatePOST, h, hn]⟩, ?_⟩
      simp [generatePOST, h, hn]
    · simp only at ho hm hup
      subst ho; subst hm; subst hup
      refine ⟨by simp [generatePOST, h, hn], ⟨[.downscale, .imageBlobUpload,
        .uploadRecordInsert, .inferenceCall, .meshFetch,
        .modelBlobUpload (urlExtOf u) (contentTypeFor (urlExtOf u))],
        by simp [generatePOST, h, hn]⟩, ?_⟩
      simp [generatePOST, h, hn]
  · intro env file h hmem
    obtain ⟨dR, iU, rI, inf, mF, mU, mI, sF, sC⟩ := env
    cases dR with
    | error e => simp [generatePOST, h] at hmem
    | ok u0 =>
      cases iU with
      | some e => simp [generatePOST, h] at hmem
      | none =>
        cases rI with
        | some e => simp [generatePOST, h] at hmem
        | none =>
          cases inf with
          | error e => simp [generatePOST, h] at hmem
          | ok output =>
            cases hno : normalizeOutput output with
            | error e => simp [generatePOST, h, hno] at hmem
            | ok u' =>
              cases mF with
              | error e => simp [generatePOST, h, hno] at hmem
              | ok uu =>
                cases mU with
                | some e => simp [generatePOST, h, hno] at hmem
                | none => exact ⟨rfl, rfl, rfl, ⟨output, u', rfl, hno⟩, rfl, rfl⟩

/-- Witness for C4 (amended): with a failing inference call, the route writes
`failed` last and returns the 500. -/
theorem generate_failed_status_spec_witness :
    (generatePOST (some ⟨"image/png", 1024⟩)
        ⟨.ok (), none, none, .error "Trellis API error", .ok (), none, none, none, none⟩).1 =
      .failure 500 "Failed to generate 3D model" ∧
    (generatePOST (some ⟨"image/png", 1024⟩)
        ⟨.ok (), none, none, .error "Trellis API error", .ok (), none, none, none, none⟩).2 =
      [.downscale, .imageBlobUpload, .uploadRecordInsert, .inferenceCall,
        .statusUpdate "failed"] := by
  have h := (generate_failed_status_spec.1
    ⟨.ok (), none, none, .error "Trellis API error", .ok (), none, none, none, none⟩
    ⟨"image/png", 1024⟩ (by decide) rfl rfl rfl (Or.inl ⟨"Trellis API error", rfl⟩))
  exact ⟨h.1, rfl⟩

/-- Counterexample for C4: all of inference, normalization, mesh fetch and
mesh blob upload succeed but the model-record insert FAILS
(`modelInsertErr = some _`); the route merely logs that error, still writes
`status = 'completed'` and returns success — contradicting the claim that a
Model-record creation failure marks the Upload `failed` before surfacing an
error and that `completed` is written only when step 7 succeeded. -/
theorem generate_model_insert_ignored_counterexample :
    generatePOST (some ⟨"image/png", 1024⟩)
      ⟨.ok (), none, none, .ok (.str "https://x/model.glb"), .ok (), none,
        some "models insert failed", none, none⟩ =
      (.success 200,
        [.downscale, .imageBlobUpload, .uploadRecordInsert, .inferenceCall, .meshFetch,
          .modelBlobUpload "glb" "model/gltf-binary", .modelRecordInsert,
          .statusUpdate "completed"]) := rfl

/-- **C8 (amended).** Mesh persistence infers the extension from the URL's
final dot-suffix, lower-cased (the empty suffix of a URL ending in a dot
defaults to `glb`), and the content type through the route's table: glb →
model/gltf-binary, gltf → model/gltf+json, obj → text/plain, ply →
application/x-ply; an *unknown* suffix defaults to
`application/octet-stream` — not the GLB binary type — for the blob upload,
and the upload effect carries exactly `contentTypeFor (urlExtOf u)`. -/
theorem meshPersistence_contentType_spec :
    contentTypeFor "glb" = "model/gltf-binary" ∧
    contentTypeFor "gltf" = "model/gltf+json" ∧
    contentTypeFor "obj" = "text/plain" ∧
    contentTypeFor "ply" = "application/x-ply" ∧
    (∀ e, e ≠ "glb" → e ≠ "gltf" → e ≠ "obj" → e ≠ "ply" →
      contentTypeFor e = "application/octet-stream") ∧
    urlExtOf "https://x/model." = "glb" ∧
    (∀ env file output u, strStartsWith file.type "image/" = true →
      env.downscaleR = .ok () → env.imageUploadErr = none → env.recordInsertErr = none →
      env.inferenceR = .ok output → normalizeOutput output = .ok u →
      env.meshFetchR = .ok () →
      RouteEffect.modelBlobUpload (urlExtOf u) (contentTypeFor (urlExtOf u)) ∈
        (generatePOST (some file) env).2) := by
  refine ⟨rfl, rfl, rfl, rfl, ?_, rfl, ?_⟩
  · intro e h1 h2 h3 h4
    simp [contentTypeFor, h1, h2, h3, h4]
  · intro env file output u h hd hi hr ho hn hm
    obtain ⟨dR, iU, rI, inf, mF, mU, mI, sF, sC⟩ := env
    simp only at hd hi hr ho hm
    subst hd; subst hi; subst hr; subst ho; subst hm
    cases mU with
    | some e => simp [generatePOST, h, hn]
    | none => simp [generatePOST, h, hn]

/-- Witness for C8 (amended): a `.xyz` mesh URL flows into the blob-upload
effect with the octet-stream content type. -/
theorem meshPersistence_contentType_spec_witness :
    RouteEffect.modelBlobUpload "xyz" "application/octet-stream" ∈
      (generatePOST (some ⟨"image/png", 1024⟩)
        ⟨.ok (), none, none, .ok (.str "https://x/model.xyz"), .ok (), none, none,
          none, none⟩).2 := by
  have h := meshPersistence_contentType_spec.2.2.2.2.2.2
    ⟨.ok (), none, none, .ok (.str "https://x/model.xyz"), .ok (), none, none, none, none⟩
    ⟨"image/png", 1024⟩ (.str "https://x/model.xyz") "https://x/model.xyz"
    (by decide) rfl rfl rfl rfl rfl rfl
  exact h

/-- Counterexample for C8: for the unknown suffix `xyz` the route uploads the
mesh blob with content type `application/octet-stream`, not the claimed GLB
binary default `model/gltf-binary`. -/
theorem contentType_unknown_suffix_counterexample :
    urlExtOf "https://x/model.xyz" = "xyz" ∧
    contentTypeFor (urlExtOf "https://x/model.xyz") = "application/octet-stream" ∧
    ("application/octet-stream" : String) ≠ "model/gltf-binary" := by
  exact ⟨rfl, rfl, by decide⟩

/-- Result of a storage upload helper: `{ path, publicUrl }`. -/
structure StorageResult where
  path : String
  publicUrl : String
deriving Repr, DecidableEq

/-- Outcomes of the external calls of the `generate3DModel` server action:
the two client constructors can throw (missing configuration), and each
retried operation has a per-attempt outcome, fed through `withRetry`. -/
structure ActionEnv where
  supabaseR : Except String Unit
  replicateR : Except String Unit
  uploadAttempts : Nat → Except String StorageResult
  tripoAttempts : Nat → Except String String
  storeAttempts : Nat → Except String StorageResult

/-- The populated `data` field of a successful generation. -/
structure GenerateData where
  imageUrl : String
  imagePath : String
  modelUrl : String
  modelPath : String
deriving Repr, DecidableEq

/-- The `Generate3DResult` shape of the server action. -/
structure Generate3DResult where
  success : Bool
  data : Option GenerateData
  error : Option String
deriving Repr, DecidableEq

/-- The message the final `catch` reports: an `Error`'s message, or
`'Unknown error occurred'` for a non-`Error` throwable (which covers the
`undefined` re-thrown by a zero-attempt retry). -/
def caughtMessage : Option String → String
  | some m => m
  | none => "Unknown error occurred"

/-- A `success: false` result built by the final `catch`. -/
def failResult (e : Option String) : Generate3DResult :=
  ⟨false, none, some (caughtMessage e)⟩

/-- The `generate3DModel` server action (part_000 lines 81-160): validate the
image string (`!image`, then neither a `data:image/` data URL nor an `http`
URL), construct the two clients, upload a data-URL image through `withRetry`
(3 attempts, 1 s initial delay) or pass an `http` URL straight through as
path `external`, run TripoSR through `withRetry` (3 attempts, 2 s), store the
model through `withRetry` (3 attempts, 1 s), and catch every thrown error
into a `success: false` result carrying its message. -/
def generate3DModel (image : String) (env : ActionEnv) : Generate3DResult :=
  if image = "" then ⟨false, none, some "Image is required"⟩
  else if strStartsWith image "data:image/" = false ∧ strStartsWith image "http" = false then
    ⟨false, none, some "Invalid image format. Provide base64 data URL or HTTP URL"⟩
  else
    match env.supabaseR with
    | .error e => failResult (some e)
    | .ok _ =>
    match env.replicateR with
    | .error e => failResult (some e)
    | .ok _ =>
      let imageStep : Except (Option String) (String × String) :=
        if strStartsWith image "data:image/" then
          match (withRetry env.uploadAttempts 3 1000).result with
          | .error e => .error e
          | .ok r => .ok (r.publicUrl, r.path)
        else .ok (image, "external")
      match imageStep with
      | .error e => failResult e
      | .ok (imageUrl, imagePath) =>
        match (withRetry env.tripoAttempts 3 2000).result with
        | .error e => failResult e
        | .ok _mesh =>
          match (withRetry env.storeAttempts 3 1000).result with
          | .error e => failResult e
          | .ok m => ⟨true, some ⟨imageUrl, imagePath, m.publicUrl, m.path⟩, none⟩

/-- **C9.** `generate3DModel` never throws — it is embedded as a total
function into `Generate3DResult` because its body catches every exception,
including those of client construction, storage and inference — and every
result is well-formed: on success the `data` field is populated, and on
every failure the `error` field carries a message string. -/
theorem generate3DModel_total_result (image : String) (env : ActionEnv) :
    ((generate3DModel image env).success = true ∧
      ∃ d, (generate3DModel image env).data = some d) ∨
    ((generate3DModel image env).success = false ∧
      ∃ msg, (generate3DModel image env).error = some msg) := by
  unfold generate3DModel failResult
  repeat' split
  all_goals
    first
      | exact Or.inl ⟨rfl, _, rfl⟩
      | exact Or.inr ⟨rfl, _, rfl⟩

/-- `originalName.split('.').pop()` (lib/storage line 8). -/
def splitPop (originalName : String) : String :=
  ((jsSplit originalName ".").getLast?).getD ""

/-- `originalName.split('.').pop() || 'bin'`: the `bin` fallback fires only
when the popped segment is the empty string. -/
def jsExtension (originalName : String) : String :=
  if splitPop originalName = "" then "bin" else splitPop originalName

/-- `originalName.replace(/\.[^/.]+$/, '')` (lib/storage line 9): strip a
final `.suffix` when the part after the last dot is nonempty and contains no
`/` (the regex match); otherwise the name is unchanged. -/
def stripExt (name : String) : String :=
  let parts := jsSplit name "."
  match parts.getLast? with
  | none => name
  | some tail =>
    if parts.length ≥ 2 ∧ tail ≠ "" ∧ ¬ (tail.toList.contains '/') then
      joinWith "." parts.dropLast
    else name

/-- One character under the sanitizer `replace(/[^a-zA-Z0-9-_]/g, '_')`. -/
def sanitizeChar (c : Char) : Char :=
  if ('a' ≤ c ∧ c ≤ 'z') ∨ ('A' ≤ c ∧ c ≤ 'Z') ∨ ('0' ≤ c ∧ c ≤ '9') ∨ c = '-' ∨ c = '_'
  then c else '_'

/-- `generateFilename(originalName, prefix)` (lib/storage lines 5-12), with
`Date.now()` and the random suffix made explicit parameters. -/
def generateFilename (originalName pfx : String) (timestamp : Nat)
    (randomSuffix : String) : String :=
  let extension := jsExtension originalName
  let baseName := String.mk ((stripExt originalName).toList.take 50)
  let sanitizedName := String.mk (baseName.toList.map sanitizeChar)
  pfx ++ toString timestamp ++ "-" ++ randomSuffix ++ "-" ++ sanitizedName ++ "." ++ extension

/-- The sanitizer only emits characters of the safe class. -/
theorem sanitizeChar_safe (c : Char) :
    ('a' ≤ sanitizeChar c ∧ sanitizeChar c ≤ 'z') ∨
    ('A' ≤ sanitizeChar c ∧ sanitizeChar c ≤ 'Z') ∨
    ('0' ≤ sanitizeChar c ∧ sanitizeChar c ≤ '9') ∨
    sanitizeChar c = '-' ∨ sanitizeChar c = '_' := by
  unfold sanitizeChar
  split_ifs with h
  · exact h
  · right; right; right; right; rfl

/-- **C10 (amended).** `generateFilename` produces
`prefix ++ timestamp ++ '-' ++ random ++ '-' ++ base ++ '.' ++ extension`
where the base is the stripped name truncated to at most 50 characters with
every character outside `[a-zA-Z0-9-_]` replaced by `_`, and the extension is
the segment after the final dot of the original name: it falls back to `bin`
only when that segment is empty (empty name or trailing dot) — a dotless name
supplies the whole name as its own extension, and the extension is NOT
sanitized. -/
theorem generateFilename_shape (originalName pfx : String) (timestamp : Nat)
    (randomSuffix : String) :
    ∃ base,
      generateFilename originalName pfx timestamp randomSuffix =
        pfx ++ toString timestamp ++ "-" ++ randomSuffix ++ "-" ++ base ++ "." ++
          jsExtension originalName ∧
      base.length ≤ 50 ∧
      (∀ c ∈ base.toList,
        ('a' ≤ c ∧ c ≤ 'z') ∨ ('A' ≤ c ∧ c ≤ 'Z') ∨ ('0' ≤ c ∧ c ≤ '9') ∨
          c = '-' ∨ c = '_') ∧
      (splitPop originalName = "" → jsExtension originalName = "bin") ∧
      (splitPop originalName ≠ "" →
        jsExtension originalName = splitPop originalName) := by
  refine ⟨String.mk (((stripExt originalName).toList.take 50).map sanitizeChar),
    rfl, ?_, ?_, ?_, ?_⟩
  · show (((stripExt originalName).toList.take 50).map sanitizeChar).length ≤ 50
    rw [List.length_map]
    exact List.length_take_le 50 (stripExt originalName).toList
  · intro c hc
    have hc2 : c ∈ ((stripExt originalName).toList.take 50).map sanitizeChar := hc
    obtain ⟨c2, _, rfl⟩ := List.mem_map.mp hc2
    exact sanitizeChar_safe c2
  · intro h
    simp [jsExtension, h]
  · intro h
    simp [jsExtension, h]

/-- Witness for C10 (amended): a representative name with spaces and a long
path-free extension. -/
theorem generateFilename_shape_witness :
    generateFilename "My Photo.PNG" "" 42 "zzz999" = "42-zzz999-My_Photo.PNG" := rfl

/-- Counterexample for C10: for the dotless name `photo` the extension is the
whole name `photo`, not the claimed default `bin`. -/
theorem generateFilename_no_dot_counterexample :
    generateFilename "photo" "" 0 "abc123" = "0-abc123-photo.photo" ∧
    ("photo".toList.contains '.') = false ∧
    jsExtension "photo" = "photo" ∧
    ("photo" : String) ≠ "bin" := by
  exact ⟨rfl, rfl, rfl, by decide⟩

/-- An `uploads` row as the sweeper reads it (`id, image_url`, plus the
`expires_at` it filters on; `none` models SQL `NULL`). -/
structure UploadRow where
  id : Nat
  imageUrl : String
  expiresAt : Option Nat
deriving Repr, DecidableEq

/-- A `models` row as the sweeper reads it. -/
structure ModelRow where
  id : Nat
  uploadId : Nat
  modelUrl : String
deriving Repr, DecidableEq

/-- The two tables the sweeper touches. -/
structure CleanupDB where
  uploads : List UploadRow
  models : List ModelRow
deriving Repr, DecidableEq

/-- Response of the cleanup route: 401, the zero-deletion early exit
(`{ message, deleted: 0 }`), or the deletion counts
`{ uploads, models, images, modelFiles }`. -/
inductive CleanupResponse where
  | unauthorized
  | noExpired
  | completed (uploads models images modelFiles : Nat)
deriving Repr, DecidableEq

/-- `process.env.CLEANUP_SECRET || process.env.CRON_SECRET` — an empty env
value is falsy and falls through. -/
def cleanupSecretConfig (cleanupSecretEnv cronSecretEnv : Option String) : Option String :=
  match cleanupSecretEnv with
  | some s => if s = "" then cronSecretEnv else some s
  | none => cronSecretEnv

/-- The auth gate (api/cleanup/route.ts lines 9-12):
`if (CLEANUP_SECRET && authHeader !== `Bearer ${CLEANUP_SECRET}`) return 401`.
An unset (or empty, hence falsy) secret admits every request. -/
def cleanupAuthorized (secret authHeader : Option String) : Bool :=
  match secret with
  | none => true
  | some s => if s = "" then true else decide (authHeader = some ("Bearer " ++ s))

/-- `u.expiresAt < now` as the `lt('expires_at', now)` query filters it; SQL
`NULL` never compares. -/
def isExpired (now : Nat) (u : UploadRow) : Bool :=
  match u.expiresAt with
  | some e => decide (e < now)
  | none => false

/-- `extractStoragePath` (api/cleanup/route.ts lines 100-108): the regex
`/storage/v1/object/public/<bucket>/(.+)$` takes everything after the first
occurrence of the marker, requiring it nonempty; no match gives `null`. -/
def extractStoragePath (url bucket : String) : Option String :=
  let marker := "/storage/v1/object/public/" ++ bucket ++ "/"
  match jsSplit url marker with
  | [] => none
  | [_] => none
  | _ :: rest =>
    let tail := joinWith marker rest
    if tail = "" then none else some tail

/-- The cleanup route handler (api/cleanup/route.ts lines 7-97) over an ideal
record store (the select/delete error branches inject external-store
failures and are not modelled): auth gate, expired-upload query, the
zero-deletion early exit, associated-model query, path extraction with
malformed URLs skipped, best-effort blob removals, record deletion with the
FK cascade from uploads to models, and the deletion counts. -/
def cleanupPOST (secret authHeader : Option String) (now : Nat) (db : CleanupDB) :
    CleanupResponse × CleanupDB :=
  if ¬ cleanupAuthorized secret authHeader then (.unauthorized, db)
  else
    let expired := db.uploads.filter (isExpired now)
    if expired.isEmpty then (.noExpired, db)
    else
      let ids : List Nat := expired.map (fun u => u.id)
      let expiredModels := db.models.filter (fun (m : ModelRow) => decide (m.uploadId ∈ ids))
      let imagePaths := expired.filterMap (fun u => extractStoragePath u.imageUrl "uploads")
      let modelPaths := expiredModels.filterMap
        (fun m => extractStoragePath m.modelUrl "models")
      (.completed expired.length expiredModels.length imagePaths.length modelPaths.length,
        ⟨db.uploads.filter (fun (u : UploadRow) => decide (u.id ∉ ids)),
          db.models.filter (fun (m : ModelRow) => decide (m.uploadId ∉ ids))⟩)

/-- An authorized sweep over a table with no expired uploads reports the
zero-deletion message and deletes nothing. -/
theorem cleanup_no_expired (secret authHeader : Option String) (now : Nat) (db : CleanupDB)
    (hauth : cleanupAuthorized secret authHeader = true)
    (hall : ∀ u ∈ db.uploads, isExpired now u = false) :
    cleanupPOST secret authHeader now db = (.noExpired, db) := by
  have hfe : db.uploads.filter (isExpired now) = [] := by
    rw [List.filter_eq_nil_iff]
    intro u hu
    simp [hall u hu]
  simp [cleanupPOST, hauth, hfe]

/-- **C6.** The Expiry Sweeper is idempotent: with no Upload expired at `now`
it reports zero deletions and leaves the tables untouched; after a sweep at
`now` no remaining Upload is expired at `now` (the first run deleted every
expired record); hence a second sweep at the same instant — "no new expired
records between the runs" — reports zero deletions and changes nothing. -/
theorem cleanup_sweeper_idempotent (secret authHeader : Option String) (now : Nat)
    (db : CleanupDB) (hauth : cleanupAuthorized secret authHeader = true) :
    ((∀ u ∈ db.uploads, isExpired now u = false) →
      cleanupPOST secret authHeader now db = (.noExpired, db)) ∧
    (∀ u ∈ (cleanupPOST secret authHeader now db).2.uploads, isExpired now u = false) ∧
    cleanupPOST secret authHeader now (cleanupPOST secret authHeader now db).2 =
      (.noExpired, (cleanupPOST secret authHeader now db).2) := by
  have part2 : ∀ u ∈ (cleanupPOST secret authHeader now db).2.uploads,
      isExpired now u = false := by
    intro u hu
    by_cases hE : (db.uploads.filter (isExpired now)).isEmpty = true
    · have hnil := List.isEmpty_iff.mp hE
      simp only [cleanupPOST, hauth, Bool.not_eq_true, hE] at hu
      simp only [if_true, Bool.false_eq_true, if_false] at hu
      by_contra hexp
      rw [Bool.not_eq_false] at hexp
      have hin : u ∈ db.uploads.filter (isExpired now) :=
        List.mem_filter.mpr ⟨hu, hexp⟩
      rw [hnil] at hin
      cases hin
    · rw [Bool.not_eq_true] at hE
      simp only [cleanupPOST, hauth, hE] at hu
      simp only [Bool.true_eq_false, not_false_eq_true, if_true, Bool.false_eq_true,
        if_false] at hu
      obtain ⟨hmem, hpass⟩ := List.mem_filter.mp hu
      have hnotin := of_decide_eq_true hpass
      by_contra hexp
      rw [Bool.not_eq_false] at hexp
      exact hnotin (List.mem_map_of_mem _ (List.mem_filter.mpr ⟨hmem, hexp⟩))
  exact ⟨cleanup_no_expired secret authHeader now db hauth, part2,
    cleanup_no_expired secret authHeader now _ hauth part2⟩

/-- One expired upload with one attached model, both with well-formed public
URLs. -/
def demoDB : CleanupDB :=
  ⟨[⟨1, "https://s.co/storage/v1/object/public/uploads/images/a.jpg", some 5⟩],
    [⟨10, 1, "https://s.co/storage/v1/object/public/models/models/a.glb"⟩]⟩

/-- Witness for C6: the first sweep deletes the records and counts
`{uploads: 1, models: 1, images: 1, modelFiles: 1}`; the immediate second
sweep reports zero deletions. -/
theorem cleanup_sweeper_idempotent_witness :
    cleanupPOST (some "sec") (some "Bearer sec") 100 demoDB =
      (.completed 1 1 1 1, ⟨[], []⟩) ∧
    cleanupPOST (some "sec") (some "Bearer sec") 100
      (cleanupPOST (some "sec") (some "Bearer sec") 100 demoDB).2 =
      (.noExpired, (cleanupPOST (some "sec") (some "Bearer sec") 100 demoDB).2) := by
  exact ⟨rfl,
    (cleanup_sweeper_idempotent (some "sec") (some "Bearer sec") 100 demoDB (by decide)).2.2⟩

/-- **C7.** When a cleanup secret is configured (truthy), a request is
rejected as 401 — with the tables untouched — unless its authorization header
is exactly `Bearer <secret>`, in which case the sweep runs; with no secret
configured every request runs unauthenticated.  The configured secret is
`CLEANUP_SECRET` when that env value is truthy, else `CRON_SECRET`. -/
theorem cleanup_auth_spec :
    (∀ s authHeader now db, s ≠ "" → authHeader ≠ some ("Bearer " ++ s) →
      cleanupPOST (some s) authHeader now db = (.unauthorized, db)) ∧
    (∀ s authHeader now db, s ≠ "" → authHeader = some ("Bearer " ++ s) →
      (cleanupPOST (some s) authHeader now db).1 ≠ .unauthorized) ∧
    (∀ authHeader now db, (cleanupPOST none authHeader now db).1 ≠ .unauthorized) ∧
    (∀ s cronEnv, s ≠ "" → cleanupSecretConfig (some s) cronEnv = some s) ∧
    (∀ cronEnv, cleanupSecretConfig none cronEnv = cronEnv) := by
  refine ⟨?_, ?_, ?_, ?_, fun cronEnv => rfl⟩
  · intro s ah now db hs hh
    have hA : cleanupAuthorized (some s) ah = false := by
      simp [cleanupAuthorized, hs, hh]
    simp [cleanupPOST, hA]
  · intro s ah now db hs hh
    have hA : cleanupAuthorized (some s) ah = true := by
      simp [cleanupAuthorized, hs, hh]
    simp only [cleanupPOST, hA, Bool.true_eq_false, not_false_eq_true, if_true,
      Bool.not_eq_true, not_true_eq_false, if_false]
    split <;> simp
  · intro ah now db
    have hA : cleanupAuthorized none ah = true := rfl
    simp only [cleanupPOST, hA, Bool.true_eq_false, not_false_eq_true, if_true,
      Bool.not_eq_true, not_true_eq_false, if_false]
    split <;> simp
  · intro s cronEnv hs
    simp [cleanupSecretConfig, hs]

/-- Witness for C7: a wrong bearer token is rejected with the table
untouched; the right one is admitted. -/
theorem cleanup_auth_spec_witness :
    cleanupPOST (some "sec") (some "Bearer wrong") 0 ⟨[], []⟩ =
      (.unauthorized, ⟨[], []⟩) ∧
    (cleanupPOST (some "sec") (some "Bearer sec") 0 ⟨[], []⟩).1 ≠ .unauthorized := by
  exact ⟨cleanup_auth_spec.1 "sec" (some "Bearer wrong") 0 ⟨[], []⟩ (by decide) (by decide),
    cleanup_auth_spec.2.1 "sec" (some "Bearer sec") 0 ⟨[], []⟩ (by decide) (by decide)⟩
